import Mathlib

/-
Verification development for the markdown event-stream renderer
(src/lib.rs and src/render.rs of the leptos-markdown crate).

The renderer is a recursive iterator: each activation of the Renderer
struct ("builder frame") drains events from a shared stream cursor until
it sees the closing tag it was opened for, spawning a child activation
for every Start tag.  We embed this as a structurally recursive machine
over the event list whose explicit stack of (opener, parent frame) pairs
is the Rust call stack of nested children() activations.  Rust panics
(wrong closing tag, Option::unwrap on None, out-of-bounds indexing,
expect/assert failures) are modelled as the Fault error of an Except;
recoverable HtmlError values are modelled as Except String and are
converted to inline error nodes exactly where the source's
unwrap_or_else does it.  External collaborators (syntect highlighting,
katex typesetting, the link-render hook) are oracles stored in the
RenderContext, matching section 6 of the design document, which treats
them as injected capabilities.
-/

namespace Md

/-- Source byte range (start, end), the Range of usize attached to each event. -/
abbrev RangeN := Nat × Nat

/-- pulldown_cmark_wikilink::Alignment. -/
inductive Alignment where
  | left
  | right
  | center
  | none
deriving DecidableEq

/-- pulldown_cmark_wikilink::HeadingLevel. -/
inductive HeadingLevel where
  | h1 | h2 | h3 | h4 | h5 | h6
deriving DecidableEq

/-- pulldown_cmark_wikilink::CodeBlockKind. -/
inductive CodeBlockKind where
  | fenced (language : String)
  | indented
deriving DecidableEq

/-- pulldown_cmark_wikilink::LinkType. -/
inductive LinkType where
  | inline
  | reference
  | referenceUnknown
  | collapsed
  | collapsedUnknown
  | shortcut
  | shortcutUnknown
  | autolink
  | email
  | wikiLink
deriving DecidableEq

/-- pulldown_cmark_wikilink::MathMode. -/
inductive MathMode where
  | inline
  | display
deriving DecidableEq, BEq

/-- pulldown_cmark_wikilink::MetadataBlockKind. -/
inductive MetadataBlockKind where
  | yamlStyle
  | plusMinusStyle
deriving DecidableEq

/-- pulldown_cmark_wikilink::TagEnd: payload-free closing marker (kind only,
except the level of a heading, the orderedness of a list and the metadata kind,
which the upstream crate keeps in the closing marker). -/
inductive TagEnd where
  | paragraph
  | heading (level : HeadingLevel)
  | blockQuote
  | codeBlock
  | list (ordered : Bool)
  | item
  | footnoteDefinition
  | table
  | tableHead
  | tableRow
  | tableCell
  | emphasis
  | strong
  | strikethrough
  | link
  | image
  | metadataBlock (kind : MetadataBlockKind)
deriving DecidableEq

/-- pulldown_cmark_wikilink::Tag, the container kinds opened by Start events.
Fields the source never reads (heading id, classes and attributes, link id)
are omitted. -/
inductive Tag where
  | paragraph
  | heading (level : HeadingLevel)
  | blockQuote
  | codeBlock (kind : CodeBlockKind)
  | list (start1 : Option Nat)
  | item
  | footnoteDefinition (label : String)
  | table (alignments : List Alignment)
  | tableHead
  | tableRow
  | tableCell
  | emphasis
  | strong
  | strikethrough
  | link (link_type : LinkType) (dest_url : String) (title : String)
  | image (link_type : LinkType) (dest_url : String) (title : String)
  | metadataBlock (kind : MetadataBlockKind)

/-- pulldown_cmark_wikilink::Event.  Event::End is the endTag constructor,
Event::Html is the html constructor. -/
inductive Event where
  | start (tag : Tag)
  | endTag (tag : TagEnd)
  | text (s : String)
  | code (s : String)
  | html (s : String)
  | footnoteReference (label : String)
  | softBreak
  | hardBreak
  | rule
  | taskListMarker (checked : Bool)
  | math (mode : MathMode) (content : String)

/-- One stream item: an event together with its source range. -/
abbrev EvR := Event × RangeN

/-- Output node (HtmlElement of the host framework).  The click field is the
source range captured by the on:click callback installed through
make_callback (None when no callback is installed on the node); attrs keeps
the static attributes, inner_html among them. -/
inductive Html where
  | text (s : String)
  | element (tag : String) (attrs : List (String × String)) (click : Option RangeN)
      (children : List Html)

/-- The Rust panics the renderer can hit, plus the theme-lookup expect of
RenderContext::new.  These abort the whole render. -/
inductive Fault where
  /-- panic "wrong closing tag" in Renderer::next -/
  | wrongClosingTag
  /-- panic "didn't expect a closing tag" in Renderer::next -/
  | didNotExpectClosingTag
  /-- panic "expected string event, got something else" in children_text -/
  | expectedStringEvent
  /-- expect "this event should be the closing tag" in children_text -/
  | missingClosingTag
  /-- assert failure on the closing tag comparison in children_text -/
  | closingAssertFailed
  /-- Option::unwrap of column_alignment being None in the TableCell arm -/
  | noColumnAlignment
  /-- out-of-bounds Vec index on the alignment list in the TableCell arm -/
  | cellIndexOutOfBounds
  /-- expect "unknown theme" in RenderContext::new -/
  | unknownTheme
deriving DecidableEq

/-- LinkDescription from src/lib.rs. -/
structure LinkDescription where
  url : String
  content : List Html
  title : String
  link_type : LinkType
  image : Bool

/-- RenderContext from src/render.rs.  The syntect data (syntax_set and the
resolved theme) and katex are external collaborators; their behaviour enters
the model as the highlight and katex oracles (section 6 of the design
document lists them as injected capabilities).  highlight takes the fenced
language token and the content and returns the highlighted markup when the
token resolves to a syntax and highlighting succeeds; katex takes the content
and the display-mode flag and returns the typeset markup on success.  The
onclick callback needs no field: its effect on the produced nodes is fully
captured by the click range recorded on each node. -/
structure RenderContext where
  theme : String
  highlight : String → String → Option String
  katex : String → Bool → Option String
  render_links : Option (LinkDescription → Html)

/-- The names in syntect's ThemeSet::load_defaults, the documented default
theme set of that external crate. -/
def defaultThemeNames : List String :=
  ["InspiredGitHub", "Solarized (dark)", "Solarized (light)",
   "base16-eighties.dark", "base16-mocha.dark", "base16-ocean.dark",
   "base16-ocean.light"]

/-- RenderContext::new: substitute the default theme name when none is given
and look it up among the loaded default themes; the expect is the unknownTheme
fault.  The oracle capabilities stand in for the loaded syntect and katex
resources. -/
def RenderContext.new (theme_name : Option String)
    (render_links : Option (LinkDescription → Html))
    (highlight : String → String → Option String)
    (katex : String → Bool → Option String) : Except Fault RenderContext :=
  let name := theme_name.getD "base16-ocean.light"
  if defaultThemeNames.contains name then
    .ok { theme := name, highlight := highlight, katex := katex,
          render_links := render_links }
  else
    .error .unknownTheme

/-- The inline error node produced by the unwrap_or_else in Renderer::next:
a span of class "error" holding the message and a br. -/
def error_span (message : String) : Html :=
  .element "span" [("class", "error"), ("style", "border: 1px solid red")] none
    [.text message, .element "br" [] none []]

/-- render_text: a span with the click callback bound to the range. -/
def render_text (_context : RenderContext) (s : String) (range : RangeN) : Html :=
  .element "span" [] (some range) [.text s]

/-- render_code: a code element with the click callback bound to the range. -/
def render_code (_context : RenderContext) (s : String) (range : RangeN) : Html :=
  .element "code" [] (some range) [.text s]

/-- render_html: a div whose inner_html is the raw passthrough content. -/
def render_html (_context : RenderContext) (s : String) (range : RangeN) : Html :=
  .element "div" [("inner_html", s)] (some range) []

/-- render_rule: an hr with the click callback. -/
def render_rule (_context : RenderContext) (range : RangeN) : Html :=
  .element "hr" [] (some range) []

/-- render_tasklist_marker: a checkbox input whose click callback also calls
prevent_default and stop_propagation before notifying the hook. -/
def render_tasklist_marker (_context : RenderContext) (m : Bool) (range : RangeN) : Html :=
  .element "input" [("type", "checkbox"), ("checked", toString m)] (some range) []

/-- align_string: the css text-align string for an alignment. -/
def align_string (align : Alignment) : String :=
  match align with
  | .left => "text-align: left"
  | .right => "text-align: right"
  | .center => "text-align: center"
  | .none => ""

/-- render_cell: a td styled with the resolved alignment. -/
def render_cell (content : List Html) (align : Alignment) : Html :=
  .element "td" [("style", align_string align)] none content

/-- render_heading: the level-specific header element. -/
def render_heading (level : HeadingLevel) (content : List Html) : Html :=
  match level with
  | .h1 => .element "h1" [] none content
  | .h2 => .element "h2" [] none content
  | .h3 => .element "h3" [] none content
  | .h4 => .element "h4" [] none content
  | .h5 => .element "h5" [] none content
  | .h6 => .element "h6" [] none content

/-- The value of the u64 list start after the source's cast to i32
(ol start attribute). -/
def u64_as_i32 (n : Nat) : Int :=
  if n % 2 ^ 32 < 2 ^ 31 then ((n % 2 ^ 32 : Nat) : Int)
  else ((n % 2 ^ 32 : Nat) : Int) - 2 ^ 32

/-- highlight_code: Indented blocks are never highlighted; Fenced blocks ask
the highlighting oracle (find_syntax_by_token returning None and a highlighting
error both surface as None, matching the source's option-question-mark and
ok-question-mark). -/
def highlight_code (context : RenderContext) (content : String)
    (kind : CodeBlockKind) : Option String :=
  match kind with
  | .fenced lang => context.highlight lang content
  | .indented => none

/-- render_code_block: absent content gives the bare empty code element
(no callback); otherwise try highlighting and fall back to an unstyled
pre with the raw text verbatim.  Both non-empty outcomes carry the click
callback bound to the Start event's range. -/
def render_code_block (context : RenderContext) (string_content : Option String)
    (k : CodeBlockKind) (range : RangeN) : Html :=
  match string_content with
  | .none => .element "code" [] none []
  | some content =>
    match highlight_code context content k with
    | .none =>
      .element "code" [] (some range)
        [.element "pre" [("inner_html", content)] none []]
    | some x => .element "div" [("inner_html", x)] (some range) []

/-- render_maths: typeset through the katex oracle (display_mode option is the
equality test with Display); on success a span classed by the mode carrying
the click callback, on failure the recoverable invalid-math error. -/
def render_maths (context : RenderContext) (content : String)
    (display_mode : MathMode) (range : RangeN) : Except String Html :=
  let class_name :=
    match display_mode with
    | .inline => "math-inline"
    | .display => "math-flow"
  match context.katex content (display_mode == MathMode.display) with
  | some x =>
    .ok (.element "span" [("inner_html", x), ("class", class_name)] (some range) [])
  | .none => .error "invalid math"

/-- render_link: delegate to the hook when installed; otherwise the default
anchor (for links, wrapping the children) or img (for images, children
discarded, title as alt).  Every arm of the source returns Ok. -/
def render_link (context : RenderContext) (link : LinkDescription) :
    Except String Html :=
  match context.render_links, link.image with
  | some f, _ => .ok (f link)
  | .none, false => .ok (.element "a" [("href", link.url)] none link.content)
  | .none, true =>
    .ok (.element "img" [("src", link.url), ("alt", link.title)] none [])

/-- Modelled from the spec: as_closing_tag lives in src/utils.rs, which is not
among the provided sources.  Per section 3 of the design document every
StartTag(k) is matched by the EndTag whose kind is the kind-only counterpart
of k (payload-free closing marker); the upstream TagEnd type keeps the heading
level, the list orderedness and the metadata kind. -/
def as_closing_tag (tag : Tag) : TagEnd :=
  match tag with
  | .paragraph => .paragraph
  | .heading l => .heading l
  | .blockQuote => .blockQuote
  | .codeBlock _ => .codeBlock
  | .list s => .list s.isSome
  | .item => .item
  | .footnoteDefinition _ => .footnoteDefinition
  | .table _ => .table
  | .tableHead => .tableHead
  | .tableRow => .tableRow
  | .tableCell => .tableCell
  | .emphasis => .emphasis
  | .strong => .strong
  | .strikethrough => .strikethrough
  | .link _ _ _ => .link
  | .image _ _ _ => .image
  | .metadataBlock k => .metadataBlock k

/-- children_text: the fixed two-event lookahead for code blocks.  First
stream item: a Text event gives the content, an exhausted stream gives None,
anything else is the expected-string panic.  Second stream item: must exist
(else the expect panics) and must equal the matching End event (else the
assert panics).  Note that the None content outcome requires the stream to be
exhausted at the first read, after which the second read necessarily panics,
so children_text can never return successfully with absent content. -/
def children_text (tag : Tag) (stream : List EvR) :
    Except Fault (Option String × List EvR) :=
  match stream with
  | (Event.text s, _) :: rest =>
    match rest with
    | (Event.endTag t, _) :: rest2 =>
      if t = as_closing_tag tag then .ok (some s, rest2)
      else .error .closingAssertFailed
    | (_, _) :: _ => .error .closingAssertFailed
    | [] => .error .missingClosingTag
  | [] => .error .missingClosingTag
  | _ :: _ => .error .expectedStringEvent

/-- The per-activation state of one Renderer value: the cloned column
alignments, the cell index and the views collected so far by collect_view.
The expected closing tag needs no field here: a frame expects a closing tag
exactly when it sits above a parent on the stack, and the expected closer is
then the closing tag of the opener stored with that stack entry. -/
structure Frame where
  column_alignment : Option (List Alignment)
  cell_index : Nat
  acc : List Html

/-- The sub-renderer built by Renderer::children: the column alignments are
cloned from the parent, the cell index restarts at 0, nothing collected yet. -/
def Frame.child (fr : Frame) : Frame :=
  { column_alignment := fr.column_alignment, cell_index := 0, acc := [] }

/-- The top-level renderer built by Renderer::new. -/
def initFrame : Frame :=
  { column_alignment := none, cell_index := 0, acc := [] }

/-- What a suspended parent remembers about the open tag whose subtree the
current frame is draining: everything render_tag still needs after children
returns.  For a table cell this includes the alignment resolved before the
children were built. -/
inductive Opener where
  | paragraph
  | heading (level : HeadingLevel)
  | blockQuote
  | list (start1 : Option Nat)
  | item
  | table
  | tableHead
  | tableRow
  | tableCell (align : Alignment)
  | emphasis
  | strong
  | strikethrough
  | link (link_type : LinkType) (dest_url : String) (title : String)
  | image (link_type : LinkType) (dest_url : String) (title : String)
  | metadataBlock (kind : MetadataBlockKind)
deriving DecidableEq

/-- The end_tag field the sub-renderer was created with, i.e. as_closing_tag
of the tag that opened the frame. -/
def Opener.closing (op : Opener) : TagEnd :=
  match op with
  | .paragraph => .paragraph
  | .heading l => .heading l
  | .blockQuote => .blockQuote
  | .list s => .list s.isSome
  | .item => .item
  | .table => .table
  | .tableHead => .tableHead
  | .tableRow => .tableRow
  | .tableCell _ => .tableCell
  | .emphasis => .emphasis
  | .strong => .strong
  | .strikethrough => .strikethrough
  | .link _ _ _ => .link
  | .image _ _ _ => .image
  | .metadataBlock k => .metadataBlock k

/-- The node render_tag produces for an open tag once its children are built:
the remainder of the corresponding render_tag arm after the children call.
The two fallible arms (link and image via render_link) convert an error the
way next's unwrap_or_else would; render_link in fact never errors. -/
def wrapFrame (context : RenderContext) (op : Opener) (children : List Html) : Html :=
  match op with
  | .paragraph => .element "p" [] none children
  | .heading l => render_heading l children
  | .blockQuote => .element "blockquote" [] none children
  | .list (some n0) =>
    .element "ol" [("start", toString (u64_as_i32 n0))] none children
  | .list .none => .element "ul" [] none children
  | .item => .element "li" [] none children
  | .table => .element "table" [] none children
  | .tableHead => .element "thead" [] none children
  | .tableRow => .element "tr" [] none children
  | .tableCell a => render_cell children a
  | .emphasis => .element "i" [] none children
  | .strong => .element "b" [] none children
  | .strikethrough => .element "s" [] none children
  | .link lt url title =>
    match render_link context
        { url := url, content := children, title := title,
          link_type := lt, image := false } with
    | .ok h => h
    | .error e => error_span e
  | .image lt url title =>
    match render_link context
        { url := url, content := children, title := title,
          link_type := lt, image := true } with
    | .ok h => h
    | .error e => error_span e
  | .metadataBlock _ => .element "div" [] none []

/-- What happens when the stream is exhausted: every pending next() returns
None, so each suspended children() call returns what it collected, render_tag
wraps it, and the parent appends the wrapped node, all the way to the
top-level collect_view. -/
def unwind (context : RenderContext) : Frame → List (Opener × Frame) → List Html
  | fr, [] => fr.acc
  | fr, (op, parent) :: stack2 =>
    unwind context
      { parent with acc := parent.acc ++ [wrapFrame context op fr.acc] } stack2

/-- The renderer: one step per consumed event, exactly the match of
Renderer::next with the Start arms of render_tag inlined.  fr is the Renderer
activation currently reading the shared cursor; the stack holds the suspended
parents, each with the opener whose children the frame below it is building.
Faults are the source's panics. -/
def run (context : RenderContext) (stream : List EvR) (fr : Frame)
    (stack : List (Opener × Frame)) : Except Fault (List Html) :=
  match stream with
  | [] => .ok (unwind context fr stack)
  | (ev, range) :: rest =>
    match ev with
    | Event.start tag =>
      match tag with
      | Tag.paragraph =>
        run context rest fr.child ((Opener.paragraph, fr) :: stack)
      | Tag.heading l =>
        run context rest fr.child ((Opener.heading l, fr) :: stack)
      | Tag.blockQuote =>
        run context rest fr.child ((Opener.blockQuote, fr) :: stack)
      | Tag.codeBlock k =>
        -- children_text inlined: the fixed two-event lookahead
        match rest with
        | (Event.text s, _) :: (Event.endTag t, _) :: rest2 =>
          if t = as_closing_tag (Tag.codeBlock k) then
            run context rest2
              { fr with acc := fr.acc ++ [render_code_block context (some s) k range] }
              stack
          else .error .closingAssertFailed
        | (Event.text _, _) :: (_, _) :: _ => .error .closingAssertFailed
        | (Event.text _, _) :: [] => .error .missingClosingTag
        | [] => .error .missingClosingTag
        | _ :: _ => .error .expectedStringEvent
      | Tag.list s =>
        run context rest fr.child ((Opener.list s, fr) :: stack)
      | Tag.item =>
        run context rest fr.child ((Opener.item, fr) :: stack)
      | Tag.footnoteDefinition _ =>
        run context rest
          { fr with acc := fr.acc ++ [error_span "footnote: not implemented"] } stack
      | Tag.table al =>
        let fr2 := { fr with column_alignment := some al }
        run context rest fr2.child ((Opener.table, fr2) :: stack)
      | Tag.tableHead =>
        run context rest fr.child ((Opener.tableHead, fr) :: stack)
      | Tag.tableRow =>
        run context rest fr.child ((Opener.tableRow, fr) :: stack)
      | Tag.tableCell =>
        match fr.column_alignment with
        | .none => .error .noColumnAlignment
        | some al =>
          match al[fr.cell_index]? with
          | .none => .error .cellIndexOutOfBounds
          | some a =>
            let fr2 := { fr with cell_index := fr.cell_index + 1 }
            run context rest fr2.child ((Opener.tableCell a, fr2) :: stack)
      | Tag.emphasis =>
        run context rest fr.child ((Opener.emphasis, fr) :: stack)
      | Tag.strong =>
        run context rest fr.child ((Opener.strong, fr) :: stack)
      | Tag.strikethrough =>
        run context rest fr.child ((Opener.strikethrough, fr) :: stack)
      | Tag.link lt url title =>
        run context rest fr.child ((Opener.link lt url title, fr) :: stack)
      | Tag.image lt url title =>
        run context rest fr.child ((Opener.image lt url title, fr) :: stack)
      | Tag.metadataBlock k =>
        run context rest fr.child ((Opener.metadataBlock k, fr) :: stack)
    | Event.endTag t =>
      match stack with
      | [] => .error .didNotExpectClosingTag
      | (op, parent) :: stack2 =>
        if t = op.closing then
          run context rest
            { parent with acc := parent.acc ++ [wrapFrame context op fr.acc] } stack2
        else .error .wrongClosingTag
    | Event.text s =>
      run context rest { fr with acc := fr.acc ++ [render_text context s range] } stack
    | Event.code s =>
      run context rest { fr with acc := fr.acc ++ [render_code context s range] } stack
    | Event.html s =>
      run context rest { fr with acc := fr.acc ++ [render_html context s range] } stack
    | Event.footnoteReference _ =>
      run context rest
        { fr with acc := fr.acc ++ [error_span "do not support footnote refs yet"] } stack
    | Event.softBreak => run context rest fr stack
    | Event.hardBreak =>
      run context rest { fr with acc := fr.acc ++ [.element "br" [] none []] } stack
    | Event.rule =>
      run context rest { fr with acc := fr.acc ++ [render_rule context range] } stack
    | Event.taskListMarker m =>
      run context rest
        { fr with acc := fr.acc ++ [render_tasklist_marker context m range] } stack
    | Event.math mode content =>
      match render_maths context content mode range with
      | .ok h => run context rest { fr with acc := fr.acc ++ [h] } stack
      | .error e => run context rest { fr with acc := fr.acc ++ [error_span e] } stack

/-- The whole render of the Markdown component: the top-level renderer's
collect_view over the full (already adapted) stream. -/
def render (context : RenderContext) (stream : List EvR) : Except Fault (List Html) :=
  run context stream initFrame []

/-- A concrete context for concrete evaluations: no hooks, the highlighting
oracle knows no language, the typesetting oracle rejects everything. -/
def ctx0 : RenderContext :=
  { theme := "base16-ocean.light", highlight := fun _ _ => none,
    katex := fun _ _ => none, render_links := none }

mutual

/-- The source ranges of the click callbacks bound inside a node, in document
order (the node's own callback, then its children's, left to right).  This is
the re-scan of section 8's round-trip property. -/
def Html.clicks : Html → List RangeN
  | .text _ => []
  | .element _ _ c children => c.toList ++ Html.clicksList children

/-- The click ranges of a sequence of nodes, in order. -/
def Html.clicksList : List Html → List RangeN
  | [] => []
  | h :: t => Html.clicks h ++ Html.clicksList t

end

/-- The claim's input-side scan, taken verbatim from the spec's words: the
ranges of all leaf events (everything that is not a start or end marker)
except SoftBreak, in original order. -/
def nonSoftBreakLeafRanges : List EvR → List RangeN
  | [] => []
  | (ev, range) :: rest =>
    (match ev with
     | Event.start _ => []
     | Event.endTag _ => []
     | Event.softBreak => []
     | _ => [range]) ++ nonSoftBreakLeafRanges rest

/-- Tags whose default rendering throws the built children away: the img
default path drops the link content, and the metadata arm discards the built
children explicitly. -/
def discardTag : Tag → Bool
  | Tag.image _ _ _ => true
  | Tag.metadataBlock _ => true
  | _ => false

/-- Same, on the opener remembered by a suspended frame. -/
def discardOpener : Opener → Bool
  | Opener.image _ _ _ => true
  | Opener.metadataBlock _ => true
  | _ => false

/-- A stream that opens no child-discarding tag. -/
def noDiscard (stream : List EvR) : Bool :=
  stream.all fun p =>
    match p.1 with
    | Event.start t => !discardTag t
    | _ => true

/-- A stack all of whose pending openers keep their children. -/
def stackGood (stack : List (Opener × Frame)) : Bool :=
  stack.all fun q => !discardOpener q.1

/-- The ranges of the input events that actually get a click callback: the
five plain leaves, a Math event whose typesetting succeeds, and a code block
Start whose lookahead finds its content.  Start and End markers, SoftBreak,
HardBreak, footnote events and failing Math bind no callback. -/
def clickableRanges (context : RenderContext) : List EvR → List RangeN
  | [] => []
  | (Event.start (Tag.codeBlock k), range) ::
      (Event.text _, _) :: (Event.endTag t, _) :: rest =>
    if t = as_closing_tag (Tag.codeBlock k) then
      range :: clickableRanges context rest
    else []
  | (Event.start (Tag.codeBlock _), _) :: _ => []
  | (Event.start _, _) :: rest => clickableRanges context rest
  | (Event.endTag _, _) :: rest => clickableRanges context rest
  | (Event.text _, range) :: rest => range :: clickableRanges context rest
  | (Event.code _, range) :: rest => range :: clickableRanges context rest
  | (Event.html _, range) :: rest => range :: clickableRanges context rest
  | (Event.footnoteReference _, _) :: rest => clickableRanges context rest
  | (Event.softBreak, _) :: rest => clickableRanges context rest
  | (Event.hardBreak, _) :: rest => clickableRanges context rest
  | (Event.rule, range) :: rest => range :: clickableRanges context rest
  | (Event.taskListMarker _, range) :: rest => range :: clickableRanges context rest
  | (Event.math mode content, range) :: rest =>
    (if (context.katex content (mode == MathMode.display)).isSome
     then [range] else []) ++ clickableRanges context rest

/-- The click ranges already committed to the machine state: the suspended
parents' collections bottom-up, then the active frame's collection. -/
def stackClicks : Frame → List (Opener × Frame) → List RangeN
  | fr, [] => Html.clicksList fr.acc
  | fr, (_, parent) :: stack2 => stackClicks parent stack2 ++ Html.clicksList fr.acc

/-- Events of one table cell with empty content, and a row of k such cells,
with the tds they produce when the alignments are resolved starting at a
given cell index. -/
def cellPair (range : RangeN) : List EvR :=
  [(Event.start Tag.tableCell, range), (Event.endTag TagEnd.tableCell, range)]

def rowCells : Nat → List EvR
  | 0 => []
  | k + 1 => cellPair (0, 0) ++ rowCells k

def tdsFrom (al : List Alignment) : Nat → Nat → List Html
  | _, 0 => []
  | c, k + 1 => render_cell [] (al.getD c Alignment.none) :: tdsFrom al (c + 1) k

/-- A context whose typesetting oracle accepts exactly the content x^2
(producing the markup X2) and rejects everything else; no hooks, no known
highlighting languages. -/
def ctxM : RenderContext :=
  { theme := "base16-ocean.light", highlight := fun _ _ => none,
    katex := fun c _ => if c = "x^2" then some "X2" else none, render_links := none }

/-- A table with alignments [left, right] and two rows of one empty cell
each: the stream for the cell-index reset question. -/
def tableTwoRows : List EvR :=
  [(Event.start (Tag.table [Alignment.left, Alignment.right]), (0, 0)),
   (Event.start Tag.tableRow, (1, 1)),
   (Event.start Tag.tableCell, (2, 2)), (Event.endTag TagEnd.tableCell, (3, 3)),
   (Event.endTag TagEnd.tableRow, (4, 4)),
   (Event.start Tag.tableRow, (5, 5)),
   (Event.start Tag.tableCell, (6, 6)), (Event.endTag TagEnd.tableCell, (7, 7)),
   (Event.endTag TagEnd.tableRow, (8, 8)),
   (Event.endTag TagEnd.table, (9, 9))]

/-- An outer table with alignments [left, right] whose first cell contains a
whole inner table with alignment [center], followed by a second outer cell:
the stream probing whether the inner table's state leaks into the outer
row. -/
def nestedTables : List EvR :=
  [(Event.start (Tag.table [Alignment.left, Alignment.right]), (0, 0)),
   (Event.start Tag.tableRow, (0, 0)),
   (Event.start Tag.tableCell, (0, 0)),
   (Event.start (Tag.table [Alignment.center]), (0, 0)),
   (Event.start Tag.tableRow, (0, 0)),
   (Event.start Tag.tableCell, (0, 0)),
   (Event.endTag TagEnd.tableCell, (0, 0)),
   (Event.endTag TagEnd.tableRow, (0, 0)),
   (Event.endTag TagEnd.table, (0, 0)),
   (Event.endTag TagEnd.tableCell, (0, 0)),
   (Event.start Tag.tableCell, (0, 0)),
   (Event.endTag TagEnd.tableCell, (0, 0)),
   (Event.endTag TagEnd.tableRow, (0, 0)),
   (Event.endTag TagEnd.table, (0, 0))]

theorem clicksList_append (a b : List Html) :
    Html.clicksList (a ++ b) = Html.clicksList a ++ Html.clicksList b := by
  induction a with
  | nil => simp [Html.clicksList]
  | cons h t ih => simp [Html.clicksList, ih]

theorem clicksList_snoc (a : List Html) (h : Html) :
    Html.clicksList (a ++ [h]) = Html.clicksList a ++ Html.clicks h := by
  simp [clicksList_append, Html.clicksList]

theorem stackClicks_congr {fr fr' : Frame} (stack : List (Opener × Frame))
    (h : fr'.acc = fr.acc) : stackClicks fr' stack = stackClicks fr stack := by
  cases stack with
  | nil => simp [stackClicks, h]
  | cons q s => obtain ⟨op, parent⟩ := q; simp [stackClicks, h]

theorem stackClicks_snoc (fr : Frame) (stack : List (Opener × Frame)) (h : Html) :
    stackClicks { fr with acc := fr.acc ++ [h] } stack =
      stackClicks fr stack ++ Html.clicks h := by
  cases stack with
  | nil => simp [stackClicks, clicksList_snoc]
  | cons q s => obtain ⟨op, parent⟩ := q; simp [stackClicks, clicksList_snoc]

theorem stackClicks_child (fr fr2 : Frame) (op : Opener)
    (stack : List (Opener × Frame)) (h : fr2.acc = fr.acc) :
    stackClicks fr2.child ((op, fr2) :: stack) = stackClicks fr stack := by
  simp [stackClicks, Frame.child, Html.clicksList, stackClicks_congr stack h]

theorem error_span_clicks (m : String) : Html.clicks (error_span m) = [] := by
  simp [error_span, Html.clicks, Html.clicksList]

theorem render_code_block_clicks (context : RenderContext) (s : String)
    (k : CodeBlockKind) (range : RangeN) :
    Html.clicks (render_code_block context (some s) k range) = [range] := by
  rcases h : highlight_code context s k with _ | x <;>
    simp [render_code_block, h, Html.clicks, Html.clicksList]

theorem wrapFrame_clicks (context : RenderContext) (op : Opener) (cs : List Html)
    (hrl : context.render_links = none) (hop : discardOpener op = false) :
    Html.clicks (wrapFrame context op cs) = Html.clicksList cs := by
  cases op with
  | paragraph => simp [wrapFrame, Html.clicks]
  | heading l => cases l <;> simp [wrapFrame, render_heading, Html.clicks]
  | blockQuote => simp [wrapFrame, Html.clicks]
  | list s => cases s <;> simp [wrapFrame, Html.clicks]
  | item => simp [wrapFrame, Html.clicks]
  | table => simp [wrapFrame, Html.clicks]
  | tableHead => simp [wrapFrame, Html.clicks]
  | tableRow => simp [wrapFrame, Html.clicks]
  | tableCell a => simp [wrapFrame, render_cell, Html.clicks]
  | emphasis => simp [wrapFrame, Html.clicks]
  | strong => simp [wrapFrame, Html.clicks]
  | strikethrough => simp [wrapFrame, Html.clicks]
  | link lt url title => simp [wrapFrame, render_link, hrl, Html.clicks]
  | image lt url title => simp [discardOpener] at hop
  | metadataBlock k => simp [discardOpener] at hop

theorem stackGood_cons (op : Opener) (fr : Frame) (stack : List (Opener × Frame)) :
    stackGood ((op, fr) :: stack) = (!discardOpener op && stackGood stack) := by
  simp [stackGood]

theorem noDiscard_cons {p : EvR} {rest : List EvR}
    (h : noDiscard (p :: rest) = true) : noDiscard rest = true := by
  simp only [noDiscard, List.all_cons, Bool.and_eq_true] at h
  exact h.2

theorem noDiscard_start {t : Tag} {range : RangeN} {rest : List EvR}
    (h : noDiscard ((Event.start t, range) :: rest) = true) : discardTag t = false := by
  simp only [noDiscard, List.all_cons, Bool.and_eq_true] at h
  simpa using h.1

theorem unwind_clicks (context : RenderContext) (hrl : context.render_links = none) :
    ∀ (stack : List (Opener × Frame)) (fr : Frame), stackGood stack = true →
      Html.clicksList (unwind context fr stack) = stackClicks fr stack := by
  intro stack
  induction stack with
  | nil => intro fr _; simp [unwind, stackClicks]
  | cons q s ih =>
    intro fr hg
    obtain ⟨op, parent⟩ := q
    rw [stackGood_cons, Bool.and_eq_true] at hg
    have hop : discardOpener op = false := by simpa using hg.1
    have hs : stackGood s = true := hg.2
    calc Html.clicksList (unwind context fr ((op, parent) :: s))
        = Html.clicksList (unwind context
            { parent with acc := parent.acc ++ [wrapFrame context op fr.acc] } s) := by
          simp [unwind]
      _ = stackClicks { parent with acc := parent.acc ++ [wrapFrame context op fr.acc] } s :=
          ih _ hs
      _ = stackClicks parent s ++ Html.clicks (wrapFrame context op fr.acc) :=
          stackClicks_snoc parent s _
      _ = stackClicks fr ((op, parent) :: s) := by
          simp [stackClicks, wrapFrame_clicks context op fr.acc hrl hop]

theorem render_maths_ok {context : RenderContext} {content : String}
    {mode : MathMode} {range : RangeN} {h : Html}
    (hm : render_maths context content mode range = .ok h) :
    Html.clicks h = [range] ∧
      (context.katex content (mode == MathMode.display)).isSome = true := by
  rcases hk : context.katex content (mode == MathMode.display) with _ | x <;>
    simp [render_maths, hk] at hm
  subst hm
  simp [hk, Html.clicks, Html.clicksList]

theorem render_maths_error {context : RenderContext} {content : String}
    {mode : MathMode} {range : RangeN} {e : String}
    (hm : render_maths context content mode range = .error e) :
    context.katex content (mode == MathMode.display) = none := by
  rcases hk : context.katex content (mode == MathMode.display) with _ | x <;>
    simp [render_maths, hk] at hm
  rfl

/-- Main invariant behind the round-trip property: a fault-free run appends,
after the clicks already committed in the machine state, exactly the
clickable ranges of the remaining stream, provided no link hook is installed
and no child-discarding tag (image, metadata block) is opened. -/
theorem run_clicks_aux (context : RenderContext) (hrl : context.render_links = none) :
    ∀ (stream : List EvR) (fr : Frame) (stack : List (Opener × Frame)),
      noDiscard stream = true → stackGood stack = true →
      ∀ out, run context stream fr stack = .ok out →
      Html.clicksList out = stackClicks fr stack ++ clickableRanges context stream := by
  intro stream fr stack
  induction stream, fr, stack using run.induct context with
  | case1 fr stack =>
    intro _ hsg out hout
    simp only [run] at hout
    injection hout with h
    subst h
    simp [clickableRanges, unwind_clicks context hrl stack fr hsg]
  | case2 fr stack range rest ih =>
    intro hnd hsg out hout
    simp only [run] at hout
    have hsg2 : stackGood ((Opener.paragraph, fr) :: stack) = true := by
      rw [stackGood_cons]; simp [discardOpener, hsg]
    have h1 := ih (noDiscard_cons hnd) hsg2 out hout
    rw [h1, stackClicks_child fr fr Opener.paragraph stack rfl]
    simp [clickableRanges]
  | case3 fr stack range rest l ih =>
    intro hnd hsg out hout
    simp only [run] at hout
    have hsg2 : stackGood ((Opener.heading l, fr) :: stack) = true := by
      rw [stackGood_cons]; simp [discardOpener, hsg]
    have h1 := ih (noDiscard_cons hnd) hsg2 out hout
    rw [h1, stackClicks_child fr fr (Opener.heading l) stack rfl]
    simp [clickableRanges]
  | case4 fr stack range rest ih =>
    intro hnd hsg out hout
    simp only [run] at hout
    have hsg2 : stackGood ((Opener.blockQuote, fr) :: stack) = true := by
      rw [stackGood_cons]; simp [discardOpener, hsg]
    have h1 := ih (noDiscard_cons hnd) hsg2 out hout
    rw [h1, stackClicks_child fr fr Opener.blockQuote stack rfl]
    simp [clickableRanges]
  | case5 fr stack range kind s snd snd_1 rest2 ih =>
    intro hnd hsg out hout
    simp only [run, if_pos] at hout
    have hnd3 : noDiscard rest2 = true :=
      noDiscard_cons (noDiscard_cons (noDiscard_cons hnd))
    have h1 := ih hnd3 hsg out hout
    rw [h1, stackClicks_snoc, render_code_block_clicks]
    simp [clickableRanges, List.append_assoc]
  | case6 fr stack range kind s snd t snd_1 rest2 hne =>
    intro _ _ out hout
    simp [run, hne] at hout
  | case7 fr stack range kind s snd fst snd_1 tail hne =>
    intro _ _ out hout
    simp only [run] at hout
    simp at hout
  | case8 fr stack range kind s snd =>
    intro _ _ out hout
    simp only [run] at hout
    simp at hout
  | case9 fr stack range kind =>
    intro _ _ out hout
    simp only [run] at hout
    simp at hout
  | case10 fr stack range kind head tail h1 h2 h3 =>
    intro _ _ out hout
    simp only [run] at hout
    simp at hout
  | case11 fr stack range rest s ih =>
    intro hnd hsg out hout
    simp only [run] at hout
    have hsg2 : stackGood ((Opener.list s, fr) :: stack) = true := by
      rw [stackGood_cons]; simp [discardOpener, hsg]
    have h1 := ih (noDiscard_cons hnd) hsg2 out hout
    rw [h1, stackClicks_child fr fr (Opener.list s) stack rfl]
    simp [clickableRanges]
  | case12 fr stack range rest ih =>
    intro hnd hsg out hout
    simp only [run] at hout
    have hsg2 : stackGood ((Opener.item, fr) :: stack) = true := by
      rw [stackGood_cons]; simp [discardOpener, hsg]
    have h1 := ih (noDiscard_cons hnd) hsg2 out hout
    rw [h1, stackClicks_child fr fr Opener.item stack rfl]
    simp [clickableRanges]
  | case13 fr stack range rest label ih =>
    intro hnd hsg out hout
    simp only [run] at hout
    have h1 := ih (noDiscard_cons hnd) hsg out hout
    rw [h1, stackClicks_snoc, error_span_clicks]
    simp [clickableRanges]
  | case14 fr stack range rest alignments fr2 ih =>
    intro hnd hsg out hout
    simp only [run] at hout
    have hsg2 : stackGood
        ((Opener.table, { fr with column_alignment := some alignments }) :: stack) = true := by
      rw [stackGood_cons]; simp [discardOpener, hsg]
    have h1 := ih (noDiscard_cons hnd) hsg2 out hout
    rw [h1, stackClicks_child fr fr2 Opener.table stack rfl]
    simp [clickableRanges]
  | case15 fr stack range rest ih =>
    intro hnd hsg out hout
    simp only [run] at hout
    have hsg2 : stackGood ((Opener.tableHead, fr) :: stack) = true := by
      rw [stackGood_cons]; simp [discardOpener, hsg]
    have h1 := ih (noDiscard_cons hnd) hsg2 out hout
    rw [h1, stackClicks_child fr fr Opener.tableHead stack rfl]
    simp [clickableRanges]
  | case16 fr stack range rest ih =>
    intro hnd hsg out hout
    simp only [run] at hout
    have hsg2 : stackGood ((Opener.tableRow, fr) :: stack) = true := by
      rw [stackGood_cons]; simp [discardOpener, hsg]
    have h1 := ih (noDiscard_cons hnd) hsg2 out hout
    rw [h1, stackClicks_child fr fr Opener.tableRow stack rfl]
    simp [clickableRanges]
  | case17 fr stack range rest hnone =>
    intro _ _ out hout
    simp [run, hnone] at hout
  | case18 fr stack range rest al hsome hoob =>
    intro _ _ out hout
    simp [run, hsome, hoob] at hout
  | case19 fr stack range rest al hsome a hget fr2 ih =>
    intro hnd hsg out hout
    simp only [run, hsome, hget] at hout
    rw [← hsome] at hout
    have hsg2 : stackGood
        ((Opener.tableCell a, { fr with cell_index := fr.cell_index + 1 }) :: stack) = true := by
      rw [stackGood_cons]; simp [discardOpener, hsg]
    have h1 := ih (noDiscard_cons hnd) hsg2 out hout
    rw [h1, stackClicks_child fr fr2 (Opener.tableCell a) stack rfl]
    simp [clickableRanges]
  | case20 fr stack range rest ih =>
    intro hnd hsg out hout
    simp only [run] at hout
    have hsg2 : stackGood ((Opener.emphasis, fr) :: stack) = true := by
      rw [stackGood_cons]; simp [discardOpener, hsg]
    have h1 := ih (noDiscard_cons hnd) hsg2 out hout
    rw [h1, stackClicks_child fr fr Opener.emphasis stack rfl]
    simp [clickableRanges]
  | case21 fr stack range rest ih =>
    intro hnd hsg out hout
    simp only [run] at hout
    have hsg2 : stackGood ((Opener.strong, fr) :: stack) = true := by
      rw [stackGood_cons]; simp [discardOpener, hsg]
    have h1 := ih (noDiscard_cons hnd) hsg2 out hout
    rw [h1, stackClicks_child fr fr Opener.strong stack rfl]
    simp [clickableRanges]
  | case22 fr stack range rest ih =>
    intro hnd hsg out hout
    simp only [run] at hout
    have hsg2 : stackGood ((Opener.strikethrough, fr) :: stack) = true := by
      rw [stackGood_cons]; simp [discardOpener, hsg]
    have h1 := ih (noDiscard_cons hnd) hsg2 out hout
    rw [h1, stackClicks_child fr fr Opener.strikethrough stack rfl]
    simp [clickableRanges]
  | case23 fr stack range rest link_type dest_url title ih =>
    intro hnd hsg out hout
    simp only [run] at hout
    have hsg2 : stackGood ((Opener.link link_type dest_url title, fr) :: stack) = true := by
      rw [stackGood_cons]; simp [discardOpener, hsg]
    have h1 := ih (noDiscard_cons hnd) hsg2 out hout
    rw [h1, stackClicks_child fr fr (Opener.link link_type dest_url title) stack rfl]
    simp [clickableRanges]
  | case24 fr stack range rest link_type dest_url title ih =>
    intro hnd _ out _
    have := noDiscard_start hnd
    simp [discardTag] at this
  | case25 fr stack range rest k ih =>
    intro hnd _ out _
    have := noDiscard_start hnd
    simp [discardTag] at this
  | case26 fr range rest t =>
    intro _ _ out hout
    simp [run] at hout
  | case27 fr range rest op parent stack2 ih =>
    intro hnd hsg out hout
    simp only [run, if_pos] at hout
    rw [stackGood_cons, Bool.and_eq_true] at hsg
    have hop : discardOpener op = false := by simpa using hsg.1
    have h1 := ih (noDiscard_cons hnd) hsg.2 out hout
    rw [h1, stackClicks_snoc, wrapFrame_clicks context op fr.acc hrl hop]
    simp [clickableRanges, stackClicks, List.append_assoc]
  | case28 fr range rest t op parent stack2 hne =>
    intro _ _ out hout
    simp [run, hne] at hout
  | case29 fr stack range rest s ih =>
    intro hnd hsg out hout
    simp only [run] at hout
    have h1 := ih (noDiscard_cons hnd) hsg out hout
    rw [h1, stackClicks_snoc]
    simp [render_text, Html.clicks, Html.clicksList, clickableRanges, List.append_assoc]
  | case30 fr stack range rest s ih =>
    intro hnd hsg out hout
    simp only [run] at hout
    have h1 := ih (noDiscard_cons hnd) hsg out hout
    rw [h1, stackClicks_snoc]
    simp [render_code, Html.clicks, Html.clicksList, clickableRanges, List.append_assoc]
  | case31 fr stack range rest s ih =>
    intro hnd hsg out hout
    simp only [run] at hout
    have h1 := ih (noDiscard_cons hnd) hsg out hout
    rw [h1, stackClicks_snoc]
    simp [render_html, Html.clicks, Html.clicksList, clickableRanges, List.append_assoc]
  | case32 fr stack range rest label ih =>
    intro hnd hsg out hout
    simp only [run] at hout
    have h1 := ih (noDiscard_cons hnd) hsg out hout
    rw [h1, stackClicks_snoc, error_span_clicks]
    simp [clickableRanges]
  | case33 fr stack range rest ih =>
    intro hnd hsg out hout
    simp only [run] at hout
    have h1 := ih (noDiscard_cons hnd) hsg out hout
    rw [h1]
    simp [clickableRanges]
  | case34 fr stack range rest ih =>
    intro hnd hsg out hout
    simp only [run] at hout
    have h1 := ih (noDiscard_cons hnd) hsg out hout
    rw [h1, stackClicks_snoc]
    simp [Html.clicks, Html.clicksList, clickableRanges]
  | case35 fr stack range rest ih =>
    intro hnd hsg out hout
    simp only [run] at hout
    have h1 := ih (noDiscard_cons hnd) hsg out hout
    rw [h1, stackClicks_snoc]
    simp [render_rule, Html.clicks, Html.clicksList, clickableRanges, List.append_assoc]
  | case36 fr stack range rest m ih =>
    intro hnd hsg out hout
    simp only [run] at hout
    have h1 := ih (noDiscard_cons hnd) hsg out hout
    rw [h1, stackClicks_snoc]
    simp [render_tasklist_marker, Html.clicks, Html.clicksList, clickableRanges,
      List.append_assoc]
  | case37 fr stack range rest mode content h hok ih =>
    intro hnd hsg out hout
    simp only [run, hok] at hout
    obtain ⟨hc, hks⟩ := render_maths_ok hok
    have h1 := ih (noDiscard_cons hnd) hsg out hout
    rw [h1, stackClicks_snoc, hc]
    simp [clickableRanges, hks, List.append_assoc]
  | case38 fr stack range rest mode content e herr ih =>
    intro hnd hsg out hout
    simp only [run, herr] at hout
    have hkn := render_maths_error herr
    have h1 := ih (noDiscard_cons hnd) hsg out hout
    rw [h1, stackClicks_snoc, error_span_clicks]
    simp [clickableRanges, hkn]

theorem run_cellPair (context : RenderContext) (rest : List EvR) (fr : Frame)
    (stack : List (Opener × Frame)) (al : List Alignment) (a : Alignment)
    (range : RangeN) (hal : fr.column_alignment = some al)
    (hget : al[fr.cell_index]? = some a) :
    run context (cellPair range ++ rest) fr stack =
      run context rest
        { fr with cell_index := fr.cell_index + 1,
                  acc := fr.acc ++ [render_cell [] a] } stack := by
  simp only [cellPair, List.cons_append, List.nil_append]
  simp only [run, hal, hget]
  simp [run, Opener.closing, wrapFrame, Frame.child, hal]

theorem run_rowCells (context : RenderContext) :
    ∀ (k : Nat) (rest : List EvR) (fr : Frame) (stack : List (Opener × Frame))
      (al : List Alignment), fr.column_alignment = some al →
      fr.cell_index + k ≤ al.length →
      run context (rowCells k ++ rest) fr stack =
        run context rest
          { fr with cell_index := fr.cell_index + k,
                    acc := fr.acc ++ tdsFrom al fr.cell_index k } stack := by
  intro k
  induction k with
  | zero =>
    intro rest fr stack al hal hle
    simp [rowCells, tdsFrom]
  | succ k ih =>
    intro rest fr stack al hal hle
    have hlt : fr.cell_index < al.length := by omega
    have hget : al[fr.cell_index]? = some (al.getD fr.cell_index Alignment.none) := by
      rw [List.getElem?_eq_getElem hlt, List.getD_eq_getElem al Alignment.none hlt]
    rw [rowCells, List.append_assoc,
      run_cellPair context _ fr stack al _ _ hal hget,
      ih _ _ stack al (by simp [hal]) (by simp; omega)]
    have harith : fr.cell_index + 1 + k = fr.cell_index + (k + 1) := by omega
    simp [tdsFrom, List.append_assoc, harith]

/-- C1 counterexample: the stream consisting of the single event
Start(Paragraph), never followed by its matching end, renders successfully
(producing an empty paragraph node) instead of hitting any fatal-fault path:
the question-mark on stream.next() in Renderer::next turns exhaustion into
normal iterator termination. -/
theorem C1_counterexample :
    run ctx0 [(Event.start Tag.paragraph, (0, 2))] initFrame [] =
      .ok [Html.element "p" [] none []] := rfl

/-- C1 amended: when the stream is exhausted while expected closers are
still pending, the render terminates silently, truncating the open subtrees
by closing every open frame implicitly (each partial subtree is wrapped and
emitted); no fault is raised.  In particular Start(Paragraph) with no end
yields an empty paragraph, and a partially filled paragraph keeps the
children collected so far. -/
theorem C1_amended :
    (∀ (context : RenderContext) (fr : Frame) (stack : List (Opener × Frame)),
      run context [] fr stack = .ok (unwind context fr stack)) ∧
    (∀ (context : RenderContext) (range : RangeN),
      run context [(Event.start Tag.paragraph, range)] initFrame [] =
        .ok [Html.element "p" [] none []]) ∧
    (∀ (context : RenderContext) (r1 r2 : RangeN) (s : String),
      run context [(Event.start Tag.paragraph, r1), (Event.text s, r2)] initFrame [] =
        .ok [Html.element "p" [] none [Html.element "span" [] (some r2) [Html.text s]]]) :=
  ⟨fun _ _ _ => rfl, fun _ _ => rfl, fun _ _ _ _ => rfl⟩

/-- C2 counterexample: in the two-row table with alignments [left, right],
the cell of the second row resolves its alignment at index 0 (style
text-align: left), not at index 0 plus the first row's cell count, which
would be index 1 (style text-align: right).  The cell index therefore does
not carry over from one TableRow to the next. -/
theorem C2_counterexample :
    run ctx0 tableTwoRows initFrame [] =
      .ok [Html.element "table" [] none
        [Html.element "tr" [] none
          [Html.element "td" [("style", "text-align: left")] none []],
         Html.element "tr" [] none
          [Html.element "td" [("style", "text-align: left")] none []]]] ∧
    align_string ([Alignment.left, Alignment.right].getD 1 Alignment.none) =
      "text-align: right" ∧
    "text-align: left" ≠ "text-align: right" :=
  ⟨rfl, rfl, by decide⟩

/-- C2 amended: each TableCell reads the alignment at the current builder's
cell index and then increments it, but every child builder is created with
cell index 0 (Renderer::children), so the counter restarts for each TableRow
frame: with alignments al and two rows of k1 and k2 cells, both rows resolve
their cells at indices 0, 1, ... rather than continuing past the first
row's count. -/
theorem C2_amended (context : RenderContext) (al : List Alignment) (k1 k2 : Nat)
    (h1 : k1 ≤ al.length) (h2 : k2 ≤ al.length) :
    (∀ (range : RangeN) (rest : List EvR) (fr : Frame) (stack : List (Opener × Frame)),
      run context ((Event.start Tag.tableRow, range) :: rest) fr stack =
        run context rest fr.child ((Opener.tableRow, fr) :: stack) ∧
      fr.child.cell_index = 0) ∧
    run context
      ((Event.start (Tag.table al), (0, 0)) :: (Event.start Tag.tableRow, (0, 0)) ::
        (rowCells k1 ++ ((Event.endTag TagEnd.tableRow, (0, 0)) ::
          (Event.start Tag.tableRow, (0, 0)) ::
          (rowCells k2 ++ [(Event.endTag TagEnd.tableRow, (0, 0)),
            (Event.endTag TagEnd.table, (0, 0))]))))
      initFrame [] =
      .ok [Html.element "table" [] none
        [Html.element "tr" [] none (tdsFrom al 0 k1),
         Html.element "tr" [] none (tdsFrom al 0 k2)]] := by
  constructor
  · intro range rest fr stack
    exact ⟨rfl, rfl⟩
  · simp only [run]
    rw [run_rowCells context k1 _ _ _ al rfl (by simpa [Frame.child, initFrame] using h1)]
    simp only [run, Opener.closing]
    rw [run_rowCells context k2 _ _ _ al rfl (by simpa [Frame.child, initFrame, wrapFrame] using h2)]
    simp [run, Opener.closing, wrapFrame, Frame.child, unwind, initFrame]

/-- C2 witness: the amended theorem at alignments [left, right] with two
rows of two cells each. -/
theorem C2_witness :
    run ctx0
      ((Event.start (Tag.table [Alignment.left, Alignment.right]), (0, 0)) ::
        (Event.start Tag.tableRow, (0, 0)) ::
        (rowCells 2 ++ ((Event.endTag TagEnd.tableRow, (0, 0)) ::
          (Event.start Tag.tableRow, (0, 0)) ::
          (rowCells 2 ++ [(Event.endTag TagEnd.tableRow, (0, 0)),
            (Event.endTag TagEnd.table, (0, 0))]))))
      initFrame [] =
      .ok [Html.element "table" [] none
        [Html.element "tr" [] none (tdsFrom [Alignment.left, Alignment.right] 0 2),
         Html.element "tr" [] none (tdsFrom [Alignment.left, Alignment.right] 0 2)]] :=
  (C2_amended ctx0 [Alignment.left, Alignment.right] 2 2 (by decide) (by decide)).2

/-- C3: the two-event lookahead of children_text works as described when
the Text event is present (conjunct 4), and render_code_block does contain
the empty-code-leaf branch for absent content (conjunct 3); but when the
Text event is actually absent, i.e. Start(CodeBlock) is immediately followed
by the matching EndTag, children_text hits its catch-all panic (expected
string event) instead of returning None, so the whole render faults
(conjuncts 1 and 2) rather than emitting the empty code leaf: the None
branch is reachable only on stream exhaustion, where the subsequent expect
panics first. -/
theorem C3_empty_code_block :
    children_text (Tag.codeBlock CodeBlockKind.indented)
        [(Event.endTag TagEnd.codeBlock, (5, 5))] = .error .expectedStringEvent ∧
    run ctx0 [(Event.start (Tag.codeBlock CodeBlockKind.indented), (0, 5)),
      (Event.endTag TagEnd.codeBlock, (5, 5))] initFrame [] =
      .error .expectedStringEvent ∧
    render_code_block ctx0 none CodeBlockKind.indented (0, 5) =
      Html.element "code" [] none [] ∧
    (∀ (s : String) (rest : List EvR) (r1 r2 : RangeN) (k : CodeBlockKind),
      children_text (Tag.codeBlock k)
        ((Event.text s, r1) :: (Event.endTag TagEnd.codeBlock, r2) :: rest) =
        .ok (some s, rest)) := by
  refine ⟨rfl, rfl, rfl, ?_⟩
  intro s rest r1 r2 k
  simp [children_text, as_closing_tag]

/-- C4: a frame consuming EndTag(k) with a pending opener terminates
successfully exactly when k equals the expected closer: the event is
consumed, no node is produced for it, and control returns to the parent
with only the wrapped subtree appended; a mismatched k is the fatal
wrong-closing-tag panic, and an EndTag at the top level (no expected
closer) is the fatal didn't-expect-a-closing-tag panic. -/
theorem C4_end_tag_discipline :
    (∀ (context : RenderContext) (t : TagEnd) (range : RangeN) (rest : List EvR)
        (fr parent : Frame) (op : Opener) (stack2 : List (Opener × Frame)),
      run context ((Event.endTag t, range) :: rest) fr ((op, parent) :: stack2) =
        if t = op.closing then
          run context rest
            { parent with acc := parent.acc ++ [wrapFrame context op fr.acc] } stack2
        else .error .wrongClosingTag) ∧
    (∀ (context : RenderContext) (t : TagEnd) (range : RangeN) (rest : List EvR)
        (fr : Frame),
      run context ((Event.endTag t, range) :: rest) fr [] =
        .error .didNotExpectClosingTag) := by
  constructor
  · intro context t range rest fr parent op stack2
    by_cases h : t = op.closing <;> simp [run, h]
  · intro context t range rest fr
    simp [run]

/-- C5 counterexample: the stream holding the single HardBreak leaf renders
to a br node that carries no click callback, so re-scanning produced node
click ranges yields the empty list while the set of non-SoftBreak leaf
ranges of the input is nonempty: the round-trip equality fails. -/
theorem C5_counterexample :
    run ctx0 [(Event.hardBreak, (0, 1))] initFrame [] =
      .ok [Html.element "br" [] none []] ∧
    Html.clicksList [Html.element "br" [] none []] = [] ∧
    nonSoftBreakLeafRanges [(Event.hardBreak, (0, 1))] = [(0, 1)] ∧
    ([] : List RangeN) ≠ [((0, 1) : RangeN)] :=
  ⟨rfl, rfl, rfl, by decide⟩

/-- C5 amended: for every stream on which the render completes without
fault, with no link hook installed and no child-discarding tag (Image,
MetadataBlock) opened, the click ranges of the produced nodes, read in
document order, reproduce exactly and in original order the ranges of the
click-bound input events: Text, Code, Html, Rule and TaskListMarker leaves,
Math events whose typesetting succeeds, and Start(CodeBlock) events with
their content lookahead; HardBreak, SoftBreak, failing Math and footnote
events bind no callback and are excluded. -/
theorem C5_amended (context : RenderContext) (stream : List EvR)
    (out : List Html) (hrl : context.render_links = none)
    (hnd : noDiscard stream = true)
    (hout : render context stream = .ok out) :
    Html.clicksList out = clickableRanges context stream := by
  have h := run_clicks_aux context hrl stream initFrame [] hnd rfl out hout
  simpa [stackClicks, initFrame, Html.clicksList] using h

/-- C5 witness: the amended round-trip at a concrete three-leaf stream. -/
theorem C5_amended_witness :
    Html.clicksList [Html.element "span" [] (some (0, 2)) [Html.text "hi"],
      Html.element "br" [] none [], Html.element "hr" [] (some (3, 4)) []] =
      clickableRanges ctx0 [(Event.text "hi", (0, 2)), (Event.hardBreak, (2, 3)),
        (Event.rule, (3, 4))] :=
  C5_amended ctx0
    [(Event.text "hi", (0, 2)), (Event.hardBreak, (2, 3)), (Event.rule, (3, 4))]
    [Html.element "span" [] (some (0, 2)) [Html.text "hi"],
      Html.element "br" [] none [], Html.element "hr" [] (some (3, 4)) []]
    rfl rfl rfl

/-- C6: an Indented code block is never highlighted; whenever highlighting
does not apply (unknown language token or highlighter failure, both
surfacing as None from highlight_code), render_code_block falls back to an
unstyled preformatted leaf holding the raw text verbatim; and the code-block
step of the renderer always continues normally, never failing the whole
render.  The concrete conjunct is the spec's own test: a fenced block with
language nonexistent-lang and text a=1 renders to the fallback leaf. -/
theorem C6_code_block_fallback :
    (∀ (context : RenderContext) (content : String),
      highlight_code context content CodeBlockKind.indented = none) ∧
    (∀ (context : RenderContext) (content : String) (k : CodeBlockKind) (range : RangeN),
      highlight_code context content k = none →
      render_code_block context (some content) k range =
        Html.element "code" [] (some range)
          [Html.element "pre" [("inner_html", content)] none []]) ∧
    (∀ (context : RenderContext) (k : CodeBlockKind) (s : String)
        (range r1 r2 : RangeN) (rest : List EvR) (fr : Frame)
        (stack : List (Opener × Frame)),
      run context ((Event.start (Tag.codeBlock k), range) :: (Event.text s, r1) ::
          (Event.endTag TagEnd.codeBlock, r2) :: rest) fr stack =
        run context rest
          { fr with acc := fr.acc ++ [render_code_block context (some s) k range] }
          stack) ∧
    run ctx0 [(Event.start (Tag.codeBlock (CodeBlockKind.fenced "nonexistent-lang")), (0, 3)),
      (Event.text "a=1", (1, 2)), (Event.endTag TagEnd.codeBlock, (2, 3))] initFrame [] =
      .ok [Html.element "code" [] (some (0, 3))
        [Html.element "pre" [("inner_html", "a=1")] none []]] := by
  refine ⟨fun _ _ => rfl, ?_, ?_, rfl⟩
  · intro context content k range h
    simp [render_code_block, h]
  · intro context k s range r1 r2 rest fr stack
    simp [run, as_closing_tag]

/-- C6 witness: the fallback equation instantiated at the concrete
nonexistent-lang block. -/
theorem C6_witness :
    render_code_block ctx0 (some "a=1") (CodeBlockKind.fenced "nonexistent-lang") (0, 3) =
      Html.element "code" [] (some (0, 3))
        [Html.element "pre" [("inner_html", "a=1")] none []] :=
  C6_code_block_fallback.2.1 ctx0 "a=1" (CodeBlockKind.fenced "nonexistent-lang") (0, 3) rfl

/-- C7: a Math event whose typesetting succeeds yields exactly one styled
leaf carrying a click callback, classed math-inline for inline mode and
math-flow for display mode; a Math event whose typesetting fails appends
only the recoverable invalid-math error node, after which rendering
continues with the following events, as the concrete conjunct shows:
a failing display formula between two successfully rendered siblings. -/
theorem C7_math :
    (∀ (context : RenderContext) (content x : String) (range : RangeN)
        (rest : List EvR) (fr : Frame) (stack : List (Opener × Frame)),
      context.katex content false = some x →
      run context ((Event.math MathMode.inline content, range) :: rest) fr stack =
        run context rest
          { fr with acc := fr.acc ++
              [Html.element "span" [("inner_html", x), ("class", "math-inline")]
                (some range) []] } stack) ∧
    (∀ (context : RenderContext) (content x : String) (range : RangeN)
        (rest : List EvR) (fr : Frame) (stack : List (Opener × Frame)),
      context.katex content true = some x →
      run context ((Event.math MathMode.display content, range) :: rest) fr stack =
        run context rest
          { fr with acc := fr.acc ++
              [Html.element "span" [("inner_html", x), ("class", "math-flow")]
                (some range) []] } stack) ∧
    (∀ (context : RenderContext) (content : String) (mode : MathMode) (range : RangeN)
        (rest : List EvR) (fr : Frame) (stack : List (Opener × Frame)),
      context.katex content (mode == MathMode.display) = none →
      run context ((Event.math mode content, range) :: rest) fr stack =
        run context rest
          { fr with acc := fr.acc ++ [error_span "invalid math"] } stack) ∧
    run ctxM [(Event.math MathMode.inline "x^2", (0, 3)),
      (Event.math MathMode.display "badmath", (3, 8)),
      (Event.text "after", (8, 13))] initFrame [] =
      .ok [Html.element "span" [("inner_html", "X2"), ("class", "math-inline")]
        (some (0, 3)) [],
        error_span "invalid math",
        Html.element "span" [] (some (8, 13)) [Html.text "after"]] := by
  refine ⟨?_, ?_, ?_, rfl⟩
  · intro context content x range rest fr stack h
    have hb : (MathMode.inline == MathMode.display) = false := rfl
    simp [run, render_maths, hb, h]
  · intro context content x range rest fr stack h
    have hb : (MathMode.display == MathMode.display) = true := rfl
    simp [run, render_maths, hb, h]
  · intro context content mode range rest fr stack h
    cases mode <;> simp_all [run, render_maths]

/-- C7 witness: the success equation instantiated at the inline formula
x^2 under the ctxM oracle. -/
theorem C7_witness :
    run ctxM [(Event.math MathMode.inline "x^2", (9, 12))] initFrame [] =
      run ctxM []
        { initFrame with acc := initFrame.acc ++
            [Html.element "span" [("inner_html", "X2"), ("class", "math-inline")]
              (some (9, 12)) []] } [] :=
  C7_math.1 ctxM "x^2" "X2" (9, 12) [] initFrame [] rfl

/-- C8 counterexample: Start(Table) assigns the current builder's own
column_alignment field, and that assignment survives the matching
End(Table): a stray TableCell after the table closes still resolves the
left alignment and renders, whereas the same cell without the preceding
table faults on the unwrap of the absent alignment.  The table-scoped state
is therefore not limited to the table's subtree. -/
theorem C8_counterexample :
    run ctx0 [(Event.start (Tag.table [Alignment.left]), (0, 1)),
      (Event.endTag TagEnd.table, (1, 2)),
      (Event.start Tag.tableCell, (2, 3)),
      (Event.endTag TagEnd.tableCell, (3, 4))] initFrame [] =
      .ok [Html.element "table" [] none [],
        Html.element "td" [("style", "text-align: left")] none []] ∧
    run ctx0 [(Event.start Tag.tableCell, (2, 3)),
      (Event.endTag TagEnd.tableCell, (3, 4))] initFrame [] =
      .error .noColumnAlignment :=
  ⟨rfl, rfl⟩

/-- C8 amended: table state is created at Start(Table) by overwriting the
current frame's alignment list (so it remains visible in that frame beyond
the matching End(Table)); every child builder inherits a structural copy of
the alignment list with cell index 0 at construction, so a nested table's
state never leaks into the outer row frame: in the nested-table stream the
outer row's second cell still resolves the outer alignment at index 1. -/
theorem C8_amended :
    (∀ (context : RenderContext) (al : List Alignment) (range : RangeN)
        (rest : List EvR) (fr : Frame) (stack : List (Opener × Frame)),
      run context ((Event.start (Tag.table al), range) :: rest) fr stack =
        run context rest ({ fr with column_alignment := some al }).child
          ((Opener.table, { fr with column_alignment := some al }) :: stack)) ∧
    (∀ (fr : Frame), fr.child.column_alignment = fr.column_alignment ∧
      fr.child.cell_index = 0 ∧ fr.child.acc = []) ∧
    run ctx0 nestedTables initFrame [] =
      .ok [Html.element "table" [] none
        [Html.element "tr" [] none
          [Html.element "td" [("style", "text-align: left")] none
            [Html.element "table" [] none
              [Html.element "tr" [] none
                [Html.element "td" [("style", "text-align: center")] none []]]],
           Html.element "td" [("style", "text-align: right")] none []]]] :=
  ⟨fun _ _ _ _ _ _ => rfl, fun _ => ⟨rfl, rfl, rfl⟩, rfl⟩

/-- C9: resolving a TableCell requires an alignment list in scope (absent
list is the fatal unwrap panic) and the current cell index strictly within
its bounds (reaching or exceeding the declared column count is the fatal
out-of-bounds panic); both faults abort the whole render with no output
rather than degrading to a per-node error node.  A row with at most as many
cells as declared columns renders fine (fewer cells than columns is
tolerated), while a row of two cells against one declared column aborts. -/
theorem C9_cell_alignment_bounds :
    (∀ (context : RenderContext) (range : RangeN) (rest : List EvR) (fr : Frame)
        (stack : List (Opener × Frame)),
      run context ((Event.start Tag.tableCell, range) :: rest) fr stack =
        match fr.column_alignment with
        | Option.none => .error .noColumnAlignment
        | some al =>
          match al[fr.cell_index]? with
          | Option.none => .error .cellIndexOutOfBounds
          | some a =>
            run context rest ({ fr with cell_index := fr.cell_index + 1 }).child
              ((Opener.tableCell a, { fr with cell_index := fr.cell_index + 1 }) :: stack)) ∧
    (∀ (context : RenderContext) (k : Nat) (al : List Alignment),
      k ≤ al.length →
      run context ((Event.start (Tag.table al), (0, 0)) ::
          (Event.start Tag.tableRow, (0, 0)) ::
          (rowCells k ++ [(Event.endTag TagEnd.tableRow, (0, 0)),
            (Event.endTag TagEnd.table, (0, 0))])) initFrame [] =
        .ok [Html.element "table" [] none [Html.element "tr" [] none (tdsFrom al 0 k)]]) ∧
    run ctx0 ((Event.start (Tag.table [Alignment.left]), (0, 0)) ::
        (Event.start Tag.tableRow, (0, 0)) ::
        (rowCells 2 ++ [(Event.endTag TagEnd.tableRow, (0, 0)),
          (Event.endTag TagEnd.table, (0, 0))])) initFrame [] =
      .error .cellIndexOutOfBounds := by
  refine ⟨?_, ?_, rfl⟩
  · intro context range rest fr stack
    rfl
  · intro context k al hk
    simp only [run]
    rw [run_rowCells context k _ _ _ al rfl (by simpa [Frame.child, initFrame] using hk)]
    simp [run, Opener.closing, wrapFrame, Frame.child, unwind, initFrame]

/-- C9 witness: the fewer-cells-tolerated conjunct at one cell against two
declared columns. -/
theorem C9_witness :
    run ctx0 ((Event.start (Tag.table [Alignment.left, Alignment.right]), (0, 0)) ::
        (Event.start Tag.tableRow, (0, 0)) ::
        (rowCells 1 ++ [(Event.endTag TagEnd.tableRow, (0, 0)),
          (Event.endTag TagEnd.table, (0, 0))])) initFrame [] =
      .ok [Html.element "table" [] none
        [Html.element "tr" [] none (tdsFrom [Alignment.left, Alignment.right] 0 1)]] :=
  C9_cell_alignment_bounds.2.1 ctx0 1 [Alignment.left, Alignment.right] (by decide)

/-- C10: constructing the render context with no theme name substitutes
base16-ocean.light, which is among the loaded default themes, so
construction always succeeds; an explicitly supplied name succeeds exactly
when it is among the default theme names and otherwise hits the fatal
unknown-theme abort. -/
theorem C10_default_theme :
    (∀ (rl : Option (LinkDescription → Html)) (hl : String → String → Option String)
        (kx : String → Bool → Option String),
      RenderContext.new none rl hl kx =
        .ok { theme := "base16-ocean.light", highlight := hl, katex := kx,
              render_links := rl }) ∧
    (∀ (n : String) (rl : Option (LinkDescription → Html))
        (hl : String → String → Option String) (kx : String → Bool → Option String),
      RenderContext.new (some n) rl hl kx =
        if defaultThemeNames.contains n then
          .ok { theme := n, highlight := hl, katex := kx, render_links := rl }
        else .error .unknownTheme) :=
  ⟨fun _ _ _ => rfl, fun _ _ _ _ => rfl⟩

end Md
